import Mathlib

/-!
Verification of the Code-Doc-Assistant repository's RAG core against its
specification.  The Python sources (src/core/vector_store.py,
src/core/rag_pipeline.py, src/agents/doc_generator_agent.py,
src/minimal_doc_assistant.py) are shallowly embedded below: strings are
manipulated as `List Char` so that every operation is kernel-computable,
external services (the sentence-transformer embedder, the OpenAI/Gemini
generation backends, the filesystem) are passed in as explicit function
arguments, and Python exceptions are modelled with `Except String`.
-/

/-- Character lists stand in for Python strings in all computations. -/
abbrev LC := List Char

/-- `startsList pat l` models Python `l.startswith(pat)`. -/
def startsList : LC → LC → Bool
  | [], _ => true
  | _ :: _, [] => false
  | p :: ps, c :: cs => p == c && startsList ps cs

/-- `hasSubstr pat l` models Python `pat in l` (substring containment). -/
def hasSubstr (pat : LC) : LC → Bool
  | [] => pat.isEmpty
  | c :: rest => startsList pat (c :: rest) || hasSubstr pat rest

/-- Whitespace test used by Python `str.strip` / `\s` in the regexes. -/
def isSpace (c : Char) : Bool := c.isWhitespace

/-- `trimC l` models Python `l.strip()`. -/
def trimC (l : LC) : LC :=
  ((l.dropWhile isSpace).reverse.dropWhile isSpace).reverse

/-- `splitOnChar sep l` models Python `l.split(sep)` for a one-character
separator (as in `content.split('\n')`). -/
def splitOnChar (sep : Char) : LC → List LC
  | [] => [[]]
  | c :: rest =>
      if c == sep then
        [] :: splitOnChar sep rest
      else
        match splitOnChar sep rest with
        | h :: t => (c :: h) :: t
        | [] => [[c]]

/-- Splitting a string into its lines, exactly as `content.split('\n')`. -/
def splitLinesC : LC → List LC := splitOnChar '\n'

/-- `joinLinesC ls` models Python `'\n'.join(ls)`. -/
def joinLinesC : List LC → LC
  | [] => []
  | [l] => l
  | l :: l' :: ls => l ++ '\n' :: joinLinesC (l' :: ls)

/-- Fuel-driven model of Python `l.split(sep)` for a multi-character
separator (used for the fenced-code-block cleaning).  The fuel is the
length of the input, which is always sufficient since every step consumes
at least one character. -/
def splitOnListFuel (sep : LC) : Nat → LC → List LC
  | 0, l => [l]
  | _ + 1, [] => [[]]
  | n + 1, c :: rest =>
      if !sep.isEmpty && startsList sep (c :: rest) then
        [] :: splitOnListFuel sep n (rest.drop (sep.length - 1))
      else
        match splitOnListFuel sep n rest with
        | h :: t => (c :: h) :: t
        | [] => [[c]]

/-- `splitOnList sep l` models Python `l.split(sep)` (non-empty `sep`). -/
def splitOnList (sep l : LC) : List LC := splitOnListFuel sep l.length l

/-- `joinWith sep ls` models Python `sep.join(ls)`. -/
def joinWith (sep : LC) : List LC → LC
  | [] => []
  | [l] => l
  | l :: l' :: ls => l ++ sep ++ joinWith sep (l' :: ls)

/-! Data model

The parser collaborator (src/core/code_parser.py, `_extract_function_data`
and `_extract_class_data`) produces one flat record per code element.  Only
the fields read by the RAG core are modelled; `docstring` is an `Option`
because `ast.get_docstring` returns `None` for undocumented elements. -/

/-- One parsed code element record, as produced by the parser collaborator.
Function records carry `args`, class records carry `methods`. -/
structure CodeMeta where
  name : String
  file_path : String
  args : List String := []
  methods : List String := []
  docstring : Option String := none
  type : String
  deriving DecidableEq

/-- The dictionary returned by the parser for a codebase, restricted to the
keys read by `CodeVectorStore._prepare_documents`. -/
structure ParsedData where
  functions : List CodeMeta := []
  classes : List CodeMeta := []
  deriving DecidableEq

/-- A prepared document of `_prepare_documents`: the embedding text, the
element kind tag, and the original parser record. -/
structure Doc where
  text : String
  type : String
  metadata : CodeMeta
  deriving DecidableEq

/-- Rendering of a possibly-missing docstring inside an f-string:
`func.get('docstring', 'None')` yields the stored string, and Python
renders an absent value as the text `"None"`. -/
def pyStr (o : Option String) : String :=
  match o with
  | none => "None"
  | some s => s

/-- Python truthiness of `elem.get('docstring')`: present and non-empty. -/
def truthy (o : Option String) : Bool :=
  match o with
  | none => false
  | some s => !s.isEmpty

/-! CodeVectorStore (src/core/vector_store.py)

The sentence-transformer model is an injected deterministic embedding
function `encode : String → List Int` (exact rational/float values are
irrelevant to the claims; determinism and exact round-tripping of the
stored vectors are what matter, and FAISS/pickle store them exactly).
`index` is `none` until `index_codebase` or `load` installs the embedding
matrix, mirroring `self.index = None` in `__init__`. -/

structure CodeVectorStore where
  encode : String → List Int
  index : Option (List (List Int)) := none
  metadata : List Doc := []
  dimension : Nat := 384

/-- `CodeVectorStore.__init__`: no index, no metadata, default dimension. -/
def mk_store (encode : String → List Int) : CodeVectorStore :=
  { encode := encode }

/-- The f-string of `_prepare_documents` for a function record (exact
whitespace of the source template). -/
def funcDocText (f : CodeMeta) : String :=
  "\n            Function: " ++ f.name ++
  "\n            File: " ++ f.file_path ++
  "\n            Arguments: " ++ String.mk (joinWith ", ".data (f.args.map (·.data))) ++
  "\n            Existing Docstring: " ++ pyStr f.docstring ++
  "\n            Type: " ++ f.type ++
  "\n            "

/-- The f-string of `_prepare_documents` for a class record. -/
def classDocText (c : CodeMeta) : String :=
  "\n            Class: " ++ c.name ++
  "\n            File: " ++ c.file_path ++
  "\n            Methods: " ++ String.mk (joinWith ", ".data (c.methods.map (·.data))) ++
  "\n            Existing Docstring: " ++ pyStr c.docstring ++
  "\n            Type: " ++ c.type ++
  "\n            "

/-- `CodeVectorStore._prepare_documents`: functions first, then classes,
each wrapped with its embedding text and kind tag. -/
def prepare_documents (pd : ParsedData) : List Doc :=
  pd.functions.map (fun f => ⟨funcDocText f, "function", f⟩) ++
  pd.classes.map (fun c => ⟨classDocText c, "class", c⟩)

/-- `CodeVectorStore.index_codebase`: prepare the documents, raise
`ValueError("No documents to index")` when there are none, otherwise embed
every text and replace the index and the metadata wholesale.  `dimension`
becomes `embeddings.shape[1]`, the row length of the embedding matrix. -/
def index_codebase (s : CodeVectorStore) (pd : ParsedData) :
    Except String CodeVectorStore :=
  let documents := prepare_documents pd
  if documents.isEmpty then
    .error "No documents to index"
  else
    let texts := documents.map (·.text)
    let embeddings := texts.map s.encode
    .ok { s with
          dimension := (embeddings.headD []).length,
          index := some embeddings,
          metadata := documents }

/-- Squared Euclidean distance, the metric of `faiss.IndexFlatL2`. -/
def sqDist (q v : List Int) : Int :=
  ((q.zip v).map (fun p => (p.1 - p.2) * (p.1 - p.2))).sum

/-- Comparison on (distance, insertion id) pairs: increasing distance,
ties broken by the smaller id, the deterministic order FAISS reports. -/
def distLe (a b : Int × Int) : Bool :=
  if a.1 < b.1 then true
  else if b.1 < a.1 then false
  else a.2 ≤ b.2

/-- Insertion into a `distLe`-sorted list. -/
def insertSorted (a : Int × Int) : List (Int × Int) → List (Int × Int)
  | [] => [a]
  | b :: bs => if distLe a b then a :: b :: bs else b :: insertSorted a bs

/-- Insertion sort by `distLe`; kernel-computable model of the ordered
nearest-neighbour output of `faiss.Index.search`. -/
def sortByDist : List (Int × Int) → List (Int × Int)
  | [] => []
  | a :: as => insertSorted a (sortByDist as)

/-- Sentinel distance FAISS reports for padded result slots (FLT_MAX)
when `k` exceeds the number of stored vectors; those slots carry id -1. -/
def faissSentinel : Int := 340282346638528859811704183484516925440

/-- One element of the list returned by `search_similar`. -/
structure SearchResult where
  metadata : CodeMeta
  distance : Int
  text : String
  deriving DecidableEq

/-- Python list indexing with negative-index wrap-around:
`l[i]` is `l[len(l)+i]` for negative `i`, and out of range is an error. -/
def pyGet (l : List Doc) (i : Int) : Option Doc :=
  if 0 ≤ i then l.get? i.toNat
  else if (-i).toNat ≤ l.length then l.get? (l.length - (-i).toNat)
  else none

/-- The result-collection loop of `search_similar`: for each
`(distance, idx)` pair, `if idx < len(self.metadata)` append the metadata
record at `idx` (Python indexing, so the padded id -1 reads the last
stored record); indexing an empty list raises `IndexError`. -/
def collectResults (metadata : List Doc) :
    List (Int × Int) → Except String (List SearchResult)
  | [] => .ok []
  | (d, idx) :: rest =>
      if idx < (metadata.length : Int) then
        match pyGet metadata idx with
        | some doc =>
            (collectResults metadata rest).map
              (fun rs => ⟨doc.metadata, d, doc.text⟩ :: rs)
        | none => .error "IndexError: list index out of range"
      else
        collectResults metadata rest

/-- `CodeVectorStore.search_similar`: raise
`ValueError("Index not initialized. Call index_codebase first.")` when no
index exists; otherwise embed the query, rank every stored vector by
squared L2 distance, keep the `k` nearest (FAISS pads with id -1 and a
FLT_MAX distance when `k` exceeds the store size), and collect the
metadata records. -/
def search_similar (s : CodeVectorStore) (query : String) (k : Nat) :
    Except String (List SearchResult) :=
  match s.index with
  | none => .error "Index not initialized. Call index_codebase first."
  | some vecs =>
      let q := s.encode query
      let scored := vecs.enum.map (fun p => (sqDist q p.2, (p.1 : Int)))
      let ranked := (sortByDist scored).take k ++
        List.replicate (k - vecs.length) (faissSentinel, (-1 : Int))
      collectResults s.metadata ranked

/-! Persistence (`save` / `load`)

The filesystem is a map from a directory path to the persisted pair
(FAISS index file, pickled metadata).  `faiss.write_index`/`read_index`
and `pickle.dump`/`load` reproduce the stored vectors and records
exactly, so persistence is modelled as storing the pair itself. -/

/-- The filesystem visible to `save` and `load`. -/
def Disk := String → Option (List (List Int) × List Doc)

/-- A disk with nothing persisted on it. -/
def emptyDisk : Disk := fun _ => none

/-- `CodeVectorStore.save`: raise `ValueError("No index to save")` without
an index, else write the index file and the metadata pickle under `path`. -/
def save (s : CodeVectorStore) (path : String) (disk : Disk) :
    Except String Disk :=
  match s.index with
  | none => .error "No index to save"
  | some vecs =>
      .ok (fun p => if p = path then some (vecs, s.metadata) else disk p)

/-- `CodeVectorStore.load`: read the FAISS index and the metadata pickle
from `path` into the store.  There is no exception handling in the
source: a missing or unreadable file propagates as an error to the
caller, and the store keeps its previous state. -/
def load (s : CodeVectorStore) (disk : Disk) (path : String) :
    Except String CodeVectorStore :=
  match disk path with
  | none => .error "PersistenceError: cannot read persisted index"
  | some (vecs, md) => .ok { s with index := some vecs, metadata := md }

/-! RAGPipeline (src/core/rag_pipeline.py)

The OpenAI chat call is an injected backend `String → Except String String`
(prompt in, response text or exception out). -/

/-- The pipeline object; only the wrapped vector store is state. -/
structure RAGPipeline where
  vector_store : CodeVectorStore

/-- The query string built in `_build_context`:
`f"{target.get('type', 'element')} {target.get('name', '')}"` (both keys
are always present on parser records). -/
def contextQuery (t : CodeMeta) : String := t.type ++ " " ++ t.name

/-- One line of the context block:
`f"Similar {elem['type']} '{elem['name']}': {elem['docstring']}"`. -/
def contextLine (m : CodeMeta) : String :=
  "Similar " ++ m.type ++ " '" ++ m.name ++ "': " ++ pyStr m.docstring

/-- The candidate-selection phase of `RAGPipeline._build_context`: use the
caller-supplied `context_elements` when given, otherwise take the metadata
of the store's top-3 similar elements.  A store exception propagates. -/
def contextCandidates (p : RAGPipeline) (target : CodeMeta)
    (context_elements : Option (List CodeMeta)) :
    Except String (List CodeMeta) :=
  match context_elements with
  | some l => .ok l
  | none =>
      (search_similar p.vector_store (contextQuery target) 3).map
        (fun rs => rs.map (·.metadata))

/-- `RAGPipeline._build_context`: keep every candidate whose `docstring`
is truthy, render each as a `contextLine`, and join with newlines.  No
candidate is ever dropped because of its `file_path`. -/
def build_context (p : RAGPipeline) (target : CodeMeta)
    (context_elements : Option (List CodeMeta)) : Except String String :=
  (contextCandidates p target context_elements).map (fun elems =>
    String.mk (joinWith ['\n']
      ((elems.filter (fun m => truthy m.docstring)).map
        (fun m => (contextLine m).data))))

/-- Python `str.capitalize`: first character upper-cased, rest lowered. -/
def capitalizeC : LC → LC
  | [] => []
  | c :: cs => c.toUpper :: cs.map Char.toLower

/-- `RAGPipeline._create_documentation_prompt` (exact source template,
whitespace included). -/
def create_documentation_prompt (e : CodeMeta) (context : String) : String :=
  "\n        Please generate comprehensive documentation for the following " ++
  e.type ++ ":\n\n        " ++
  String.mk (capitalizeC e.type.data) ++ " Name: " ++ e.name ++
  "\n        File: " ++ e.file_path ++
  "\n        Arguments: " ++ String.mk (joinWith ", ".data (e.args.map (·.data))) ++
  "\n        Existing Documentation: " ++ pyStr e.docstring ++
  "\n\n        Context from similar code elements:\n        " ++ context ++
  "\n\n        Please generate:\n        1. A clear docstring following the appropriate style guide" ++
  "\n        2. Brief explanation of purpose" ++
  "\n        3. Parameter descriptions (if applicable)" ++
  "\n        4. Return value description (if applicable)" ++
  "\n        5. Any important notes or examples" ++
  "\n\n        Make the documentation consistent with the existing style in the codebase.\n        "

/-- `RAGPipeline.generate_documentation`: build the context (outside the
try-block, so a store exception propagates), build the prompt, then call
the backend inside `try/except Exception`: a successful response is
returned trimmed, any backend exception is turned into the string
`"Error generating documentation: ..."` — never re-raised. -/
def rag_generate_documentation (p : RAGPipeline)
    (backend : String → Except String String) (code_element : CodeMeta)
    (context_elements : Option (List CodeMeta)) : Except String String :=
  match build_context p code_element context_elements with
  | .error e => .error e
  | .ok context =>
      let prompt := create_documentation_prompt code_element context
      match backend prompt with
      | .ok r => .ok (String.mk (trimC r.data))
      | .error e => .ok ("Error generating documentation: " ++ e)

/-! DocumentationGeneratorAgent (src/agents/doc_generator_agent.py)

`generate_documentation` reads the file and asks the pipeline for context
before the guarded section; the part relevant to the error-handling
contract is the `try/except` around the Gemini call: extract the fenced
code block from a successful response, and on any exception return the
original `code_content` unchanged. -/

/-- The guarded generation step of
`DocumentationGeneratorAgent.generate_documentation` (source lines 34-48):
total in the backend's behaviour. -/
def agent_generate_documentation (backend : String → Except String String)
    (code_content : String) (prompt : String) : String :=
  match backend prompt with
  | .ok r =>
      let dc :=
        if hasSubstr "```python".data r.data then
          (splitOnList "```".data ((splitOnList "```python".data r.data).getD 1 [])).getD 0 []
        else if hasSubstr "```".data r.data then
          (splitOnList "```".data ((splitOnList "```".data r.data).getD 1 [])).getD 0 []
        else r.data
      String.mk (trimC dc)
  | .error _ => code_content

/-! FixedDocGenerator (src/minimal_doc_assistant.py)

The Gemini client is again an injected backend.  File reading/writing and
the preview/backup side effects are outside the embedded computation: the
functions below map the file's original content to the documented content
exactly as `generate_documentation` computes it. -/

/-- The prompt template of `FixedDocGenerator._generate_with_gemini`. -/
def gemini_prompt (content : String) : String :=
  "Please add comprehensive documentation to this Python code.\n\nAdd:\n" ++
  "1. Module docstring if missing\n" ++
  "2. Class docstrings with Google style\n" ++
  "3. Function docstrings with parameters, returns, and examples\n" ++
  "4. Keep all existing code and functionality\n\n" ++
  "Return ONLY the complete Python code with documentation, no explanations.\n\n" ++
  "Code:\n" ++ content

/-- `FixedDocGenerator._generate_with_gemini`: call the backend, trim the
response, strip a fenced code block when present, then reject (raise
`ValueError("No changes made by Gemini")`) an empty result or a result
identical to the input; backend exceptions are re-raised. -/
def generate_with_gemini (backend : String → Except String String)
    (content : String) : Except String String :=
  match backend (gemini_prompt content) with
  | .error e => .error e
  | .ok text =>
      let r0 := trimC text.data
      let result :=
        if hasSubstr "```python".data r0 then
          trimC ((splitOnList "```".data ((splitOnList "```python".data r0).getD 1 [])).getD 0 [])
        else if hasSubstr "```".data r0 then
          trimC ((splitOnList "```".data ((splitOnList "```".data r0).getD 1 [])).getD 0 [])
        else r0
      if result.isEmpty || result == content.data then
        .error "No changes made by Gemini"
      else
        .ok (String.mk result)

/-- A line is preserved by the header loop of `_generate_local` when it
starts with `#!` or `# -*-`. -/
def isHeaderLine (l : LC) : Bool :=
  startsList "#!".data l || startsList "# -*-".data l

/-- The three-double-quote delimiter. -/
def tripleQuote : LC := ['\"', '\"', '\"']

/-- The three-single-quote delimiter. -/
def tripleApos : LC := ['\'', '\'', '\'']

/-- `FixedDocGenerator._next_line_has_docstring`: the line after the
current one, stripped, starts with a triple quote. -/
def next_line_has_docstring (rest : List LC) : Bool :=
  match rest with
  | [] => false
  | nxt :: _ =>
      startsList tripleQuote (trimC nxt) || startsList tripleApos (trimC nxt)

/-- The early-docstring scan of `_generate_local`
(`for j in range(i, min(i+5, len(lines)))`): a stripped line starting with
a triple quote means a docstring exists; a non-empty, non-comment,
non-import line stops the scan. -/
def scanDocstring : Nat → List LC → Bool
  | 0, _ => false
  | _ + 1, [] => false
  | n + 1, l :: ls =>
      if startsList tripleQuote (trimC l) || startsList tripleApos (trimC l) then
        true
      else if !(trimC l).isEmpty && !startsList "#".data l &&
          !startsList "import".data l then
        false
      else
        scanDocstring n ls

/-- A regex word character (`\w`). -/
def isWordChar (c : Char) : Bool := c.isAlphanum || c == '_'

/-- Drop an exact literal from the front of a list, when present. -/
def dropExact (pat l : LC) : Option LC :=
  if startsList pat l then some (l.drop pat.length) else none

/-- `FixedDocGenerator._extract_function_name`:
`re.match(r'def\s+(\w+)\s*\(', line.strip())`, returning the captured
name.  `\s+` and `\w+` are maximal-munch here because the neighbouring
pattern pieces match disjoint character classes. -/
def extract_function_name (line : LC) : Option LC :=
  match dropExact "def".data (trimC line) with
  | none => none
  | some r1 =>
      if (r1.takeWhile isSpace).isEmpty then none
      else
        let r2 := r1.dropWhile isSpace
        let nm := r2.takeWhile isWordChar
        if nm.isEmpty then none
        else
          match (r2.dropWhile isWordChar).dropWhile isSpace with
          | '(' :: _ => some nm
          | _ => none

/-- `FixedDocGenerator._extract_class_name`:
`re.match(r'class\s+(\w+)', line.strip())`. -/
def extract_class_name (line : LC) : Option LC :=
  match dropExact "class".data (trimC line) with
  | none => none
  | some r1 =>
      if (r1.takeWhile isSpace).isEmpty then none
      else
        let nm := (r1.dropWhile isSpace).takeWhile isWordChar
        if nm.isEmpty then none else some nm

/-- Attempt of `re.search(r'def\s+\w+\s*\((.*?)\)', l)` to match at the
start of `l`, returning the text after the opening parenthesis. -/
def matchDefOpen (l : LC) : Option LC :=
  match dropExact "def".data l with
  | none => none
  | some r1 =>
      if (r1.takeWhile isSpace).isEmpty then none
      else
        let r2 := r1.dropWhile isSpace
        if (r2.takeWhile isWordChar).isEmpty then none
        else
          match (r2.dropWhile isWordChar).dropWhile isSpace with
          | '(' :: rest => some rest
          | _ => none

/-- The non-greedy capture `(.*?)\)`: the characters before the first
closing parenthesis, failing when there is none. -/
def upToParen (l : LC) : Option LC :=
  if l.contains ')' then some (l.takeWhile (· != ')')) else none

/-- `re.search(r'def\s+\w+\s*\((.*?)\)', func_line)`: try every start
position left to right, returning the first successful capture. -/
def searchDefParams : LC → Option LC
  | [] => none
  | c :: rest =>
      match matchDefOpen (c :: rest) with
      | some r =>
          match upToParen r with
          | some ps => some ps
          | none => searchDefParams rest
      | none => searchDefParams rest

/-- The parameter post-processing loop of `_create_function_docstring`:
split the capture on commas, strip each piece, drop empties and `self`,
and cut a default value at the first `=`. -/
def parseParams (ps : LC) : List LC :=
  (splitOnChar ',' ps).filterMap (fun raw =>
    let p := trimC raw
    if p.isEmpty || p == "self".data then none
    else if p.contains '=' then some (trimC (p.takeWhile (· != '=')))
    else some p)

/-- `FixedDocGenerator._create_function_docstring`: the template docstring
naming the function and each parameter. -/
def create_function_docstring (func_name func_line : LC) : LC :=
  let params :=
    match searchDefParams func_line with
    | some ps => parseParams ps
    | none => []
  func_name ++ ".".data ++
  (if params.isEmpty then []
   else "\n\nArgs:".data ++
     params.flatMap (fun p => "\n    ".data ++ p ++ ": Description".data)) ++
  "\n\nReturns:\n    Description of return value".data

/-- `FixedDocGenerator._create_class_docstring`. -/
def create_class_docstring (class_name : LC) : LC :=
  class_name ++ ".\n\nClass description.".data

/-- `os.path.basename` for the module docstring. -/
def basenameC (p : LC) : LC := (p.reverse.takeWhile (· != '/')).reverse

/-- The module docstring inserted by `_generate_local`:
`f'\"\"\"{os.path.basename(file_path)}\n\nModule description.\n\"\"\"'`. -/
def moduleDoc (fp : LC) : LC :=
  tripleQuote ++ basenameC fp ++ "\n\nModule description.\n".data ++ tripleQuote

/-- The docstring element appended after a `def ` line:
`'    \"\"\"' + docstring + '\"\"\"'`. -/
def functionDocElement (func_name func_line : LC) : LC :=
  "    ".data ++ tripleQuote ++
  create_function_docstring func_name func_line ++ tripleQuote

/-- The docstring element appended after a `class ` line. -/
def classDocElement (class_name : LC) : LC :=
  "    ".data ++ tripleQuote ++ create_class_docstring class_name ++ tripleQuote

/-- The zero-or-one docstring elements the body loop of `_generate_local`
appends right after `line` (`rest` is the list of following lines, used by
the next-line docstring check). -/
def localInsertion (line : LC) (rest : List LC) : List LC :=
  if startsList "def ".data (trimC line) then
    match extract_function_name line with
    | some func_name =>
        if next_line_has_docstring rest then []
        else [functionDocElement func_name line]
    | none => []
  else if startsList "class ".data (trimC line) then
    match extract_class_name line with
    | some class_name =>
        if next_line_has_docstring rest then []
        else [classDocElement class_name]
    | none => []
  else []

/-- The body loop of `_generate_local` (`while i < len(lines)`): every
line is echoed, followed by its optional docstring insertion. -/
def processRest : List LC → List LC
  | [] => []
  | line :: ls => line :: (localInsertion line ls ++ processRest ls)

/-- `FixedDocGenerator._generate_local` at the level of output elements:
the preserved shebang/encoding header, the optional module docstring and
blank line, then the processed body. -/
def generate_local_lines (lines : List LC) (fp : LC) : List LC :=
  let hdr := lines.takeWhile isHeaderLine
  let rest := lines.dropWhile isHeaderLine
  let i := hdr.length
  let docPart :=
    if i == 0 || (i == 1 && !hdr.isEmpty && startsList "#!".data (hdr.headD [])) then
      if scanDocstring 5 rest then [] else [moduleDoc fp, []]
    else []
  hdr ++ docPart ++ processRest rest

/-- `FixedDocGenerator._generate_local`: split the content into lines,
build the output elements, and join them with newlines. -/
def generate_local (content file_path : String) : String :=
  String.mk (joinLinesC (generate_local_lines (splitLinesC content.data) file_path.data))

/-- The documented-content computation of
`FixedDocGenerator.generate_documentation`: with Gemini available, take
the Gemini result (exceptions from `_generate_with_gemini` propagate to
the outer handler and abort this file), and fall back to the local
generator only when the result contains one of the two prompt-echo
markers; without Gemini, use the local generator directly. -/
def fixed_generate_documentation (use_gemini : Bool)
    (backend : String → Except String String) (content file_path : String) :
    Except String String :=
  if use_gemini then
    match generate_with_gemini backend content with
    | .error e => .error e
    | .ok documented =>
        if hasSubstr "\x7bcode\x7d".data documented.data ||
            hasSubstr "CODE TO DOCUMENT".data documented.data then
          .ok (generate_local content file_path)
        else
          .ok documented
  else
    .ok (generate_local content file_path)

/-! Line-splitting lemmas -/

/-- Splitting never yields an empty list of pieces. -/
theorem splitOnChar_ne_nil (sep : Char) (l : LC) : splitOnChar sep l ≠ [] := by
  induction l with
  | nil => simp [splitOnChar]
  | cons c rest ih =>
      simp only [splitOnChar]
      split
      · simp
      · split
        · simp
        · simp

/-- Splitting distributes over a separator occurrence. -/
theorem splitOnChar_append (sep : Char) (x y : LC) :
    splitOnChar sep (x ++ sep :: y) = splitOnChar sep x ++ splitOnChar sep y := by
  induction x with
  | nil => simp [splitOnChar]
  | cons c rest ih =>
      by_cases hc : c == sep
      · simp only [List.cons_append, splitOnChar, hc, if_pos]
        exact congrArg _ ih
      · simp only [List.cons_append, splitOnChar, hc, if_neg, ih]
        cases hs : splitOnChar sep rest with
        | nil => exact absurd hs (splitOnChar_ne_nil sep rest)
        | cons h t => simp [splitOnChar, hc, hs, ih]

/-- No piece of a split contains the separator. -/
theorem not_mem_splitOnChar (sep : Char) (l : LC) :
    ∀ m ∈ splitOnChar sep l, sep ∉ m := by
  induction l with
  | nil => intro m hm; simp [splitOnChar] at hm; simp [hm]
  | cons c rest ih =>
      intro m hm
      simp only [splitOnChar] at hm
      by_cases hc : c == sep
      · rw [if_pos hc] at hm
        rcases List.mem_cons.mp hm with h | h
        · simp [h]
        · exact ih m h
      · rw [if_neg hc] at hm
        cases hs : splitOnChar sep rest with
        | nil => exact absurd hs (splitOnChar_ne_nil sep rest)
        | cons h t =>
            rw [hs] at hm
            rcases List.mem_cons.mp hm with h1 | h1
            · subst h1
              intro hmem
              rcases List.mem_cons.mp hmem with h2 | h2
              · exact hc (by simp [h2])
              · exact ih h (by simp [hs]) h2
            · exact ih m (by simp [hs, h1])

/-- A separator-free list splits to itself as the single piece. -/
theorem splitOnChar_eq_single (sep : Char) (l : LC) (h : sep ∉ l) :
    splitOnChar sep l = [l] := by
  induction l with
  | nil => simp [splitOnChar]
  | cons c rest ih =>
      have hc : ¬ (c == sep) := by
        simp only [List.mem_cons, not_or] at h
        simp [beq_iff_eq]
        exact fun he => h.1 he.symm
      have hrest : sep ∉ rest := by
        simp only [List.mem_cons, not_or] at h
        exact h.2
      simp only [splitOnChar, if_neg hc, ih hrest]

/-- Splitting a newline-join recovers the concatenation of the pieces'
own line lists. -/
theorem splitLinesC_joinLinesC (ls : List LC) (h : ls ≠ []) :
    splitLinesC (joinLinesC ls) = ls.flatMap splitLinesC := by
  induction ls with
  | nil => exact absurd rfl h
  | cons l rest ih =>
      cases rest with
      | nil => simp [joinLinesC, List.flatMap]
      | cons l' ls' =>
          have : joinLinesC (l :: l' :: ls') = l ++ '\n' :: joinLinesC (l' :: ls') := rfl
          rw [this]
          show splitOnChar '\n' _ = _
          rw [splitOnChar_append]
          rw [List.flatMap_cons]
          exact congrArg _ (ih (by simp))

/-- `flatMap` preserves sublists. -/
theorem Sublist.flatMapCongr {α β : Type} {l₁ l₂ : List α} (f : α → List β)
    (h : List.Sublist l₁ l₂) : List.Sublist (l₁.flatMap f) (l₂.flatMap f) := by
  induction h with
  | slnil => simp
  | cons a h ih =>
      rw [List.flatMap_cons]
      exact ih.trans (List.sublist_append_right _ _)
  | cons₂ a h ih =>
      rw [List.flatMap_cons, List.flatMap_cons]
      exact ih.append_left _

/-- Every input line survives the body loop, in order. -/
theorem sublist_processRest (ls : List LC) : List.Sublist ls (processRest ls) := by
  induction ls with
  | nil => simp [processRest]
  | cons line rest ih =>
      show List.Sublist (line :: rest) (line :: (localInsertion line rest ++ processRest rest))
      exact (ih.trans (List.sublist_append_right _ _)).cons₂ line

/-- Every input line survives `_generate_local`, in order, as a whole
output element. -/
theorem sublist_generate_local_lines (lines : List LC) (fp : LC) :
    List.Sublist lines (generate_local_lines lines fp) := by
  show List.Sublist lines
    (List.takeWhile isHeaderLine lines ++ _ ++ processRest (List.dropWhile isHeaderLine lines))
  conv_lhs => rw [← List.takeWhile_append_dropWhile (p := isHeaderLine) (l := lines)]
  rw [List.append_assoc]
  exact List.Sublist.append (List.Sublist.refl _)
    ((sublist_processRest _).trans (List.sublist_append_right _ _))

/-- The output element list is never empty when the input line list is
not (the body loop echoes every line). -/
theorem generate_local_lines_ne_nil (lines : List LC) (fp : LC)
    (h : lines ≠ []) : generate_local_lines lines fp ≠ [] := by
  intro hnil
  have hsub := sublist_generate_local_lines lines fp
  rw [hnil] at hsub
  exact h (List.sublist_nil.mp hsub)

/-- Lines produced by splitting re-split to themselves, so flat-mapping
the splitter over them is the identity. -/
theorem flatMap_splitLinesC_self (lines : List LC)
    (h : ∀ l ∈ lines, ('\n' : Char) ∉ l) :
    lines.flatMap splitLinesC = lines := by
  induction lines with
  | nil => simp
  | cons l rest ih =>
      rw [List.flatMap_cons]
      rw [show splitLinesC l = [l] from
        splitOnChar_eq_single '\n' l (h l (by simp))]
      rw [ih (fun m hm => h m (by simp [hm]))]
      rfl

/-- C10.  Every line of the input appears unchanged and in order in the
output of `_generate_local`: the input's lines form a sublist of the
output's lines.  The generator only inserts docstring elements. -/
theorem generate_local_preserves_lines (content file_path : String) :
    List.Sublist (splitLinesC content.data)
      (splitLinesC (generate_local content file_path).data) := by
  have hdata : (generate_local content file_path).data =
      joinLinesC (generate_local_lines (splitLinesC content.data) file_path.data) := rfl
  rw [hdata]
  have h1 : splitLinesC content.data ≠ [] := splitOnChar_ne_nil '\n' content.data
  have h2 : generate_local_lines (splitLinesC content.data) file_path.data ≠ [] :=
    generate_local_lines_ne_nil _ _ h1
  rw [splitLinesC_joinLinesC _ h2]
  have h3 : (splitLinesC content.data).flatMap splitLinesC = splitLinesC content.data :=
    flatMap_splitLinesC_self _ (not_mem_splitOnChar '\n' content.data)
  conv_lhs => rw [← h3]
  exact Sublist.flatMapCongr splitLinesC (sublist_generate_local_lines _ _)

/-! Vector store theorems -/

/-- The result-collection loop never raises the index-not-initialized
error (its only possible error is Python's `IndexError`). -/
theorem collectResults_ne_init_error (md : List Doc) (l : List (Int × Int)) :
    collectResults md l ≠
      Except.error "Index not initialized. Call index_codebase first." := by
  induction l with
  | nil => simp [collectResults]
  | cons p rest ih =>
      obtain ⟨d, idx⟩ := p
      simp only [collectResults]
      split
      · cases hget : pyGet md idx with
        | none => simp
        | some doc =>
            cases hrec : collectResults md rest with
            | ok rs => simp [Except.map]
            | error e =>
                rw [hrec] at ih
                simp only [Except.map]
                intro hcontra
                exact ih (by
                  cases hcontra
                  rfl)
      · exact ih

/-- C5.  A freshly constructed store has no index; querying a store
without an index fails with the index-not-ready error, and querying a
store whose index is installed never fails with that error. -/
theorem search_similar_requires_index (e : String → List Int)
    (s : CodeVectorStore) (q : String) (k : Nat) :
    (mk_store e).index = none ∧
    (s.index = none →
      search_similar s q k =
        Except.error "Index not initialized. Call index_codebase first.") ∧
    (∀ vecs, s.index = some vecs →
      search_similar s q k ≠
        Except.error "Index not initialized. Call index_codebase first.") := by
  refine ⟨rfl, fun h => by simp [search_similar, h], fun vecs h => ?_⟩
  simp only [search_similar, h]
  exact collectResults_ne_init_error _ _

/-- Shared embedding function for concrete witnesses. -/
def wEnc : String → List Int := fun s => [(s.length : Int)]

/-- A one-element parsed codebase for concrete witnesses. -/
def wParsed : ParsedData :=
  { functions := [{ name := "foo", file_path := "a.py",
                    docstring := some "Does foo.", type := "function" }] }

/-- The store obtained by indexing `wParsed` into a fresh store. -/
def wStore : CodeVectorStore :=
  { encode := wEnc,
    index := some ((prepare_documents wParsed).map (fun d => wEnc d.text)),
    metadata := prepare_documents wParsed,
    dimension := 1 }

/-- Witness for C5 at two concrete stores. -/
theorem search_similar_requires_index_witness :
    search_similar (mk_store wEnc) "function bar" 3 =
      Except.error "Index not initialized. Call index_codebase first." ∧
    search_similar wStore "function bar" 3 ≠
      Except.error "Index not initialized. Call index_codebase first." :=
  ⟨(search_similar_requires_index wEnc (mk_store wEnc) "function bar" 3).2.1 rfl,
   (search_similar_requires_index wEnc wStore "function bar" 3).2.2 _ rfl⟩

/-- C2.  Round-trip: persisting a store with an index and at least one
entry and loading the persisted artifact into any store with the same
embedding model yields a store whose query results — elements, order and
scores — are identical to the original store's for every query and k. -/
theorem save_load_roundtrip_query (s t : CodeVectorStore)
    (henc : t.encode = s.encode) (path : String) (disk : Disk)
    (q : String) (k : Nat) (vecs : List (List Int))
    (hidx : s.index = some vecs) (hmeta : s.metadata ≠ []) :
    ∃ disk' t', save s path disk = Except.ok disk' ∧
      load t disk' path = Except.ok t' ∧
      search_similar t' q k = search_similar s q k := by
  refine ⟨fun p => if p = path then some (vecs, s.metadata) else disk p,
          { t with index := some vecs, metadata := s.metadata }, ?_, ?_, ?_⟩
  · simp [save, hidx]
  · simp [load]
  · simp [search_similar, hidx, henc]

/-- Witness for C2: a concrete store, target store, path and disk. -/
theorem save_load_roundtrip_query_witness :
    ∃ disk' t', save wStore "index_dir" emptyDisk = Except.ok disk' ∧
      load (mk_store wEnc) disk' "index_dir" = Except.ok t' ∧
      search_similar t' "function bar" 2 = search_similar wStore "function bar" 2 :=
  save_load_roundtrip_query wStore (mk_store wEnc) rfl "index_dir" emptyDisk
    "function bar" 2 _ rfl (by decide)

/-- Counterexample to C6 as stated: indexing parsed data that yields no
documents does not succeed — `index_codebase` raises
`ValueError("No documents to index")`. -/
theorem index_codebase_empty_not_ok :
    ¬ ∃ s', index_codebase (mk_store wEnc) {} = Except.ok s' := by
  rintro ⟨s', h⟩
  simp [index_codebase, prepare_documents] at h

/-- C6 (amended).  When the parsed data yields no documents,
`index_codebase` raises `ValueError("No documents to index")`; the raise
happens before any mutation, so the store's entries, index and element
count are unchanged. -/
theorem index_codebase_no_documents (s : CodeVectorStore) (pd : ParsedData)
    (h : prepare_documents pd = []) :
    index_codebase s pd = Except.error "No documents to index" := by
  simp [index_codebase, h]

/-- Witness for the amended C6 on a store that already holds entries. -/
theorem index_codebase_no_documents_witness :
    index_codebase wStore {} = Except.error "No documents to index" :=
  index_codebase_no_documents wStore {} rfl

/-- Counterexample to C7 as stated: loading from a path holding no
persisted index does not fall back to an empty store — the error
propagates to the caller (there is no exception handling in `load`). -/
theorem load_missing_not_ok :
    ¬ ∃ s', load (mk_store wEnc) emptyDisk "index_dir" = Except.ok s' := by
  rintro ⟨s', h⟩
  simp [load, emptyDisk] at h

/-- C7 (amended).  When nothing is persisted at the path, `load` fails
with the persistence error, which propagates to the caller; the store is
not replaced by a freshly constructed empty index. -/
theorem load_missing_propagates (s : CodeVectorStore) (disk : Disk)
    (path : String) (h : disk path = none) :
    load s disk path =
      Except.error "PersistenceError: cannot read persisted index" := by
  simp [load, h]

/-- Witness for the amended C7. -/
theorem load_missing_propagates_witness :
    load wStore emptyDisk "index_dir" =
      Except.error "PersistenceError: cannot read persisted index" :=
  load_missing_propagates wStore emptyDisk "index_dir" rfl

/-- C9.  A successful `index_codebase` call replaces the store state:
the resulting metadata is exactly the documents prepared from this call's
parsed data, and the index holds exactly their embeddings — whatever
entries the store held before are discarded. -/
theorem index_codebase_replaces (s : CodeVectorStore) (pd : ParsedData)
    (s' : CodeVectorStore) (h : index_codebase s pd = Except.ok s') :
    s'.metadata = prepare_documents pd ∧
    s'.index = some (((prepare_documents pd).map (fun d => d.text)).map s.encode) := by
  simp only [index_codebase] at h
  split at h
  · cases h
  · cases h
    exact ⟨rfl, rfl⟩

/-- A store already holding unrelated entries, for the C9 witness. -/
def preStore : CodeVectorStore :=
  { encode := wEnc,
    index := some [[9], [9]],
    metadata := [⟨"old text", "function",
      { name := "old", file_path := "old.py", type := "function" }⟩,
      ⟨"old text 2", "class",
      { name := "Old", file_path := "old.py", type := "class" }⟩],
    dimension := 1 }

/-- Witness for C9: re-indexing a store that already holds two unrelated
entries leaves exactly the newly prepared documents. -/
theorem index_codebase_replaces_witness :
    ∃ s', index_codebase preStore wParsed = Except.ok s' ∧
      (s'.metadata = prepare_documents wParsed ∧
       s'.index = some (((prepare_documents wParsed).map (fun d => d.text)).map preStore.encode)) :=
  ⟨_, rfl, index_codebase_replaces preStore wParsed _ rfl⟩

/-! Orchestrator theorems -/

/-- C4.  For every target element, every caller-supplied context block and
every behaviour of the generation backend — success or any exception —
`RAGPipeline.generate_documentation` returns a string: a backend
exception is converted into a degraded "Error generating documentation"
string, never re-raised; and the agent's guarded generation step likewise
returns a string (the original content) on any backend exception. -/
theorem generate_documentation_total (p : RAGPipeline)
    (backend : String → Except String String) (elem : CodeMeta)
    (ctx : List CodeMeta) (cc : String) :
    (∃ out, rag_generate_documentation p backend elem (some ctx) = Except.ok out) ∧
    (∀ e prompt, backend prompt = Except.error e →
      agent_generate_documentation backend cc prompt = cc) := by
  constructor
  · simp only [rag_generate_documentation, build_context, contextCandidates, Except.map]
    cases backend (create_documentation_prompt elem _) with
    | ok r => exact ⟨_, rfl⟩
    | error e => exact ⟨_, rfl⟩
  · intro e prompt h
    simp [agent_generate_documentation, h]

/-- A backend that always raises, for the C4 witness. -/
def failBackend : String → Except String String := fun _ => Except.error "boom"

/-- Witness for C4 at a concrete pipeline, element and failing backend. -/
theorem generate_documentation_total_witness :
    (∃ out, rag_generate_documentation ⟨wStore⟩ failBackend
        { name := "bar", file_path := "a.py", type := "function" }
        (some []) = Except.ok out) ∧
    agent_generate_documentation failBackend "code" "prompt" = "code" :=
  ⟨(generate_documentation_total ⟨wStore⟩ failBackend
      { name := "bar", file_path := "a.py", type := "function" } [] "code").1,
   (generate_documentation_total ⟨wStore⟩ failBackend
      { name := "bar", file_path := "a.py", type := "function" } [] "code").2
     "boom" "prompt" rfl⟩

/-! Context assembler: the self-file filter claim -/

/-- Constant embedder: every text maps to the same vector, so the store
returns entries in insertion order. -/
def cexEnc : String → List Int := fun _ => [0]

/-- Three documented functions, all living in the target's own file. -/
def cexMeta1 : CodeMeta :=
  { name := "foo", file_path := "app.py", docstring := some "Does foo.",
    type := "function" }

def cexMeta2 : CodeMeta :=
  { name := "baz", file_path := "app.py", docstring := some "Does baz.",
    type := "function" }

def cexMeta3 : CodeMeta :=
  { name := "qux", file_path := "app.py", docstring := some "Does qux.",
    type := "function" }

def cexParsed : ParsedData := { functions := [cexMeta1, cexMeta2, cexMeta3] }

/-- The indexed store over `cexParsed` (reachable from a fresh store by
`index_codebase`, as the counterexample's first conjunct checks). -/
def cexStore : CodeVectorStore :=
  { encode := cexEnc,
    index := some ((prepare_documents cexParsed).map (fun d => cexEnc d.text)),
    metadata := prepare_documents cexParsed,
    dimension := 1 }

/-- An element of the same file, to be documented. -/
def cexTarget : CodeMeta :=
  { name := "bar", file_path := "app.py", type := "function" }

/-- Counterexample to C1: on a store reachable by `index_codebase`, the
context assembler's store-query path returns a non-empty context block
every one of whose entries has the target's own `file_path` —
`_build_context` applies no file_path filter at all. -/
theorem build_context_keeps_own_file :
    index_codebase (mk_store cexEnc) cexParsed = Except.ok cexStore ∧
    ¬ (∀ entries block,
        contextCandidates ⟨cexStore⟩ cexTarget none = Except.ok entries →
        build_context ⟨cexStore⟩ cexTarget none = Except.ok block →
        block ≠ "" →
        ∀ m ∈ entries.filter (fun m => truthy m.docstring),
          m.file_path ≠ cexTarget.file_path) := by
  refine ⟨rfl, fun h => ?_⟩
  exact h [cexMeta1, cexMeta2, cexMeta3] _ rfl rfl (by decide) cexMeta1 (by decide) rfl

/-- C1 (amended).  When the context assembler builds a context block by
querying the store, the candidate entries are exactly the metadata of the
store's top-3 query results for "type name", and the block renders
exactly those candidates with a truthy docstring — no candidate is
dropped for having the target's own `file_path`. -/
theorem build_context_selection (p : RAGPipeline) (t : CodeMeta)
    (entries : List CodeMeta)
    (h : contextCandidates p t none = Except.ok entries) :
    (∃ results,
        search_similar p.vector_store (t.type ++ " " ++ t.name) 3 =
          Except.ok results ∧
        entries = results.map (fun r => r.metadata)) ∧
    build_context p t none = Except.ok (String.mk (joinWith ['\n']
      ((entries.filter (fun m => truthy m.docstring)).map
        (fun m => (contextLine m).data)))) := by
  constructor
  · simp only [contextCandidates] at h
    cases hs : search_similar p.vector_store (contextQuery t) 3 with
    | ok rs =>
        rw [hs] at h
        simp only [Except.map] at h
        cases h
        exact ⟨rs, hs, rfl⟩
    | error e =>
        rw [hs] at h
        simp [Except.map] at h
  · simp only [build_context, h, Except.map]

/-- Witness for the amended C1 at the concrete store and target. -/
theorem build_context_selection_witness :
    (∃ results,
        search_similar cexStore ("function" ++ " " ++ "bar") 3 =
          Except.ok results ∧
        [cexMeta1, cexMeta2, cexMeta3] = results.map (fun r => r.metadata)) ∧
    build_context ⟨cexStore⟩ cexTarget none = Except.ok (String.mk (joinWith ['\n']
      (([cexMeta1, cexMeta2, cexMeta3].filter (fun m => truthy m.docstring)).map
        (fun m => (contextLine m).data)))) :=
  build_context_selection ⟨cexStore⟩ cexTarget [cexMeta1, cexMeta2, cexMeta3] rfl

/-! FixedDocGenerator theorems -/

set_option maxRecDepth 8192

/-- C3 at its failing input: when the backend echoes the request prompt
verbatim for the file content "x = 1", the echoed prompt passes the
cleaning and validation steps (it is non-empty, differs from the input,
and contains neither of the two markers the code checks — the markers do
not occur in this generator's own prompt template), so
`generate_documentation` returns the echoed prompt, not the local
fallback documentation. -/
theorem echoed_prompt_survives_validation :
    fixed_generate_documentation true (fun p => Except.ok p) "x = 1" "f.py" =
      Except.ok (gemini_prompt "x = 1") ∧
    gemini_prompt "x = 1" ≠ generate_local "x = 1" "f.py" := by
  constructor
  · rfl
  · decide

/-- C8.  For the target function `foo(a, b)` with no docstring, the
offline fallback docstring names the function and both parameters, and so
does the full `_generate_local` output for a file containing it. -/
theorem fallback_names_function_and_params :
    (hasSubstr "foo".data
      (create_function_docstring "foo".data "def foo(a, b):".data) = true ∧
     hasSubstr "a".data
      (create_function_docstring "foo".data "def foo(a, b):".data) = true ∧
     hasSubstr "b".data
      (create_function_docstring "foo".data "def foo(a, b):".data) = true) ∧
    (hasSubstr "foo".data
      (generate_local "def foo(a, b):\n    return a + b" "m.py").data = true ∧
     hasSubstr "a".data
      (generate_local "def foo(a, b):\n    return a + b" "m.py").data = true ∧
     hasSubstr "b".data
      (generate_local "def foo(a, b):\n    return a + b" "m.py").data = true) := by
  constructor
  · exact ⟨by decide, by decide, by decide⟩
  · exact ⟨by decide, by decide, by decide⟩
